import Mathlib

/-!
Shallow embedding of the Synacor-challenge virtual machine interpreter
(`src/main.rs`) and verification of its specification claims.

Conventions of the embedding:
* Rust `u16`/`u8`/`usize` values are modelled as `Nat`; wherever the source
  performs a truncating cast (`as u8`, `as u16`) the embedding takes the
  corresponding `% 256` / `% 65536`.
* A Rust panic (a failed `unwrap`, or `x % 0` on `usize`) is modelled as
  `none` / the `aborted` step outcome: the process dies, no further state.
* `print!` diagnostics that are not the `out` byte sink (the `set` error
  message and the `in` prompt) are not part of the modelled output stream;
  only the bytes written for `out` instructions are recorded.
* The console is modelled explicitly: `output` is the list of bytes written
  so far; `input` is the list of pending input lines (each a list of bytes);
  `stdin().read_line` consumes one line.
-/

namespace Synacor

/-- Constant `ADDRESS_RANGE` from the source: `1 << 15`. -/
def ADDRESS_RANGE : Nat := 1 <<< 15

/-- Constant `INTEGER_RANGE` from the source: `1 << 15`. -/
def INTEGER_RANGE : Nat := 1 <<< 15

/-- Constant `NUMBER_OF_REGISTERS` from the source. -/
def NUMBER_OF_REGISTERS : Nat := 8

/-- The `Address` enum of the source: a resolved addressing target. -/
inductive Address where
  | mem (raw : Nat)
  | reg (idx : Nat)
deriving DecidableEq, Repr

/-- The `Instruction` enum of the source. The Rust variant `In` is spelled
`inp` here because `in` is a Lean keyword. -/
inductive Instruction where
  | halt
  | set (a b : Nat)
  | push (a : Nat)
  | pop (a : Nat)
  | eq (a b c : Nat)
  | gt (a b c : Nat)
  | jmp (a : Nat)
  | jt (a b : Nat)
  | jf (a b : Nat)
  | add (a b c : Nat)
  | mult (a b c : Nat)
  | mod (a b c : Nat)
  | and (a b c : Nat)
  | or (a b c : Nat)
  | not (a b : Nat)
  | rmem (a b : Nat)
  | wmem (a b : Nat)
  | call (a : Nat)
  | ret
  | out (a : Nat)
  | inp (a : Nat)
  | noop
deriving DecidableEq, Repr

/-- The machine state. The source keeps `memory`, `registers` and `stack` in
the `Machine` struct and the instruction pointer `ip` as a local of `main`;
the console streams are the process's stdin/stdout. They are bundled here so
that one step of the interpreter loop is a function on one state. `memory`
is byte-addressed (`[u8; 1 << 16]` in the source). -/
structure Machine where
  memory : Nat → Nat
  registers : Nat → Nat
  stack : List Nat
  ip : Nat
  input : List (List Nat)
  output : List Nat

/-- Function `get_addr` from the source: classify a raw word as a memory address,
a register reference, or invalid (`None`, which every caller `unwrap`s,
i.e. a fatal panic). -/
def get_addr (addr : Nat) : Option Address :=
  if addr < ADDRESS_RANGE then
    some (.mem addr)
  else if addr < ADDRESS_RANGE + NUMBER_OF_REGISTERS then
    some (.reg (addr - ADDRESS_RANGE))
  else
    none

/-- Function `read_mem` from the source: read the 16-bit little-endian word at byte
offset `raw_addr << 1`, or the contents of a register. -/
def read_mem (m : Machine) (address : Address) : Nat :=
  match address with
  | .mem raw_addr =>
      let addr := raw_addr <<< 1
      let lower := m.memory addr
      let upper := m.memory (addr + 1) <<< 8
      upper ||| lower
  | .reg addr => m.registers addr

/-- Function `write_mem` from the source: store a word little-endian into the byte
array (the `as u8` casts are the `% 256`), or store it verbatim into a
register. -/
def write_mem (m : Machine) (address : Address) (value : Nat) : Machine :=
  match address with
  | .mem raw_addr =>
      let addr := raw_addr <<< 1
      let lower := value % 256
      let upper := (value >>> 8) % 256
      { m with memory := fun i =>
          if i = addr then lower else if i = addr + 1 then upper else m.memory i }
  | .reg addr =>
      { m with registers := fun i => if i = addr then value else m.registers i }

/-- Function `get_oprnd_value` from the source: read the word at `raw_addr`; if it is
below `INTEGER_RANGE` it is the value, otherwise classify it again and read
through the register it names. Both `get_addr(..).unwrap()` panics are the
`none` outcome. -/
def get_oprnd_value (m : Machine) (raw_addr : Nat) : Option Nat := do
  let a ← get_addr raw_addr
  let value := read_mem m a
  if value < INTEGER_RANGE then
    pure value
  else do
    let a2 ← get_addr value
    pure (read_mem m a2)

/-- Function `get_op` from the source: decode the instruction at `raw_addr`. The
source groups opcodes by arity and, per group, reads the raw operand words
and resolves the operand values exactly as reproduced here (note that each
group resolves every operand it reads, even ones the particular opcode does
not use). `none` covers both the source's `None` (invalid opcode) and the
`unwrap` panics of operand resolution; `main` `unwrap`s the result, so both
are fatal. -/
def get_op (m : Machine) (raw_addr : Nat) : Option Instruction := do
  let addr ← get_addr raw_addr
  let instr := read_mem m addr
  match instr with
  | 0 => pure .halt
  | 18 => pure .ret
  | 21 => pure .noop
  | 2 | 3 | 6 | 17 | 19 | 20 => do
      let a_raw_addr ← get_addr (raw_addr + 1)
      let a_raw := read_mem m a_raw_addr
      let a ← get_oprnd_value m (raw_addr + 1)
      match instr with
      | 2 => pure (.push a)
      | 3 => pure (.pop a_raw)
      | 6 => pure (.jmp a)
      | 17 => pure (.call a)
      | 19 => pure (.out a)
      | 20 => pure (.inp a_raw)
      | _ => none
  | 1 | 7 | 8 | 14 | 15 | 16 => do
      let a_raw_addr ← get_addr (raw_addr + 1)
      let a_raw := read_mem m a_raw_addr
      let b_raw_addr ← get_addr (raw_addr + 2)
      let b_raw := read_mem m b_raw_addr
      let a ← get_oprnd_value m (raw_addr + 1)
      let b ← get_oprnd_value m (raw_addr + 2)
      match instr with
      | 1 => pure (.set a_raw b)
      | 7 => pure (.jt a b)
      | 8 => pure (.jf a b)
      | 14 => pure (.not a_raw b)
      | 15 => pure (.rmem a_raw b_raw)
      | 16 => pure (.wmem a b)
      | _ => none
  | 4 | 5 | 9 | 10 | 11 | 12 | 13 => do
      let a_raw_addr ← get_addr (raw_addr + 1)
      let a_raw := read_mem m a_raw_addr
      let b ← get_oprnd_value m (raw_addr + 2)
      let c ← get_oprnd_value m (raw_addr + 3)
      match instr with
      | 4 => pure (.eq a_raw b c)
      | 5 => pure (.gt a_raw b c)
      | 9 => pure (.add a_raw b c)
      | 10 => pure (.mult a_raw b c)
      | 11 => pure (.mod a_raw b c)
      | 12 => pure (.and a_raw b c)
      | 13 => pure (.or a_raw b c)
      | _ => none
  | _ => none

/-- Function `comp_op` from the source: `eq`/`gt` compute `1` or `0` (strict `>` for
`gt`), classify the raw destination word (`unwrap` panic is `none`) and
write the value there. Any other instruction falls through unchanged. -/
def comp_op (m : Machine) (instr : Instruction) : Option Machine :=
  match instr with
  | .eq a b c =>
      let value := if b = c then 1 else 0
      (get_addr a).map fun addr => write_mem m addr value
  | .gt a b c =>
      let value := if b > c then 1 else 0
      (get_addr a).map fun addr => write_mem m addr value
  | _ => some m

/-- Function `bin_op` from the source. The `op` closure returns `Option Nat` so that
a panic inside the Rust closure (`x % y` with `y = 0` on `usize`) is the
`none` outcome; the closures for `add`, `mult`, `and`, `or` are total.
`add`/`mult` reduce modulo `INTEGER_RANGE`; the `result as u16` cast is the
`% 65536`. -/
def bin_op (m : Machine) (op : Nat → Nat → Option Nat) (instr : Instruction) :
    Option Machine :=
  match instr with
  | .add a b c | .mult a b c => do
      let addr ← get_addr a
      let r ← op b c
      pure (write_mem m addr ((r % INTEGER_RANGE) % 65536))
  | .mod a b c | .and a b c | .or a b c => do
      let addr ← get_addr a
      let r ← op b c
      pure (write_mem m addr (r % 65536))
  | _ => some m

/-- Outcome of one iteration of the `loop` in `main`: continue with a new
state, exit the loop cleanly (`halt`), or die by panic (`aborted`). -/
inductive StepResult where
  | next (m : Machine)
  | halted (m : Machine)
  | aborted

/-- The bytes Rust's `print!("{}", c)` writes for a `char` whose code point
is the byte `c` (`(a as u8) as char` in the source): the UTF-8 encoding of
code point `c < 256` — one byte below 128, two bytes from 128 on. -/
def utf8OfByte (c : Nat) : List Nat :=
  if c < 128 then [c] else [192 ||| (c >>> 6), 128 ||| (c &&& 63)]

/-- One iteration of the fetch-decode-execute `loop` in `main`, translated
arm by arm from the `match instr` of the source. Decoding failure
(`get_op(..).unwrap()`) aborts. Note the source quirks kept faithfully:
`set` with a non-register destination prints a diagnostic and leaves the
state (including `ip`) unchanged; `in` reads and discards one input line and
does not touch registers or `ip`; destination words of the other
write-back instructions are classified with `get_addr` and written to
wherever they point, memory included. -/
def step (m : Machine) : StepResult :=
  match get_op m m.ip with
  | none => .aborted
  | some instr =>
    match instr with
    | .halt => .halted m
    | .set a b =>
        match get_addr a with
        | none => .aborted
        | some addr =>
            match addr with
            | .reg _ => .next { write_mem m addr b with ip := m.ip + 3 }
            | _ => .next m
    | .push a => .next { m with stack := a :: m.stack, ip := m.ip + 2 }
    | .pop a =>
        match get_addr a with
        | none => .aborted
        | some addr =>
            match m.stack with
            | [] => .aborted
            | value :: rest =>
                .next { write_mem { m with stack := rest } addr value with ip := m.ip + 2 }
    | .eq _ _ _ | .gt _ _ _ =>
        match comp_op m instr with
        | none => .aborted
        | some m2 => .next { m2 with ip := m.ip + 4 }
    | .jmp a => .next { m with ip := a }
    | .jt a b =>
        if a ≠ 0 then .next { m with ip := b } else .next { m with ip := m.ip + 3 }
    | .jf a b =>
        if a = 0 then .next { m with ip := b } else .next { m with ip := m.ip + 3 }
    | .add _ _ _ =>
        match bin_op m (fun x y => some (x + y)) instr with
        | none => .aborted
        | some m2 => .next { m2 with ip := m.ip + 4 }
    | .mult _ _ _ =>
        match bin_op m (fun x y => some (x * y)) instr with
        | none => .aborted
        | some m2 => .next { m2 with ip := m.ip + 4 }
    | .mod _ _ _ =>
        match bin_op m (fun x y => if y = 0 then none else some (x % y)) instr with
        | none => .aborted
        | some m2 => .next { m2 with ip := m.ip + 4 }
    | .and _ _ _ =>
        match bin_op m (fun x y => some (x &&& y)) instr with
        | none => .aborted
        | some m2 => .next { m2 with ip := m.ip + 4 }
    | .or _ _ _ =>
        match bin_op m (fun x y => some (x ||| y)) instr with
        | none => .aborted
        | some m2 => .next { m2 with ip := m.ip + 4 }
    | .not a b =>
        match get_addr a with
        | none => .aborted
        | some addr => .next { write_mem m addr (b ^^^ 0x7FFF) with ip := m.ip + 3 }
    | .rmem a b =>
        match get_addr a with
        | none => .aborted
        | some addr_a =>
            match get_addr b with
            | none => .aborted
            | some addr_b =>
                match addr_b with
                | .mem _ =>
                    .next { write_mem m addr_a (read_mem m addr_b) with ip := m.ip + 3 }
                | .reg _ =>
                    let temp_value := read_mem m addr_b
                    match get_addr temp_value with
                    | none => .aborted
                    | some addr_b2 =>
                        .next { write_mem m addr_a (read_mem m addr_b2) with ip := m.ip + 3 }
    | .wmem a b =>
        match get_addr a with
        | none => .aborted
        | some addr => .next { write_mem m addr b with ip := m.ip + 3 }
    | .call a => .next { m with stack := (m.ip + 2) :: m.stack, ip := a }
    | .ret =>
        match m.stack with
        | [] => .aborted
        | value :: rest => .next { m with stack := rest, ip := value }
    | .out a => .next { m with output := m.output ++ utf8OfByte (a % 256), ip := m.ip + 2 }
    | .inp _ => .next { m with input := m.input.tail }
    | .noop => .next { m with ip := m.ip + 1 }

/-- Little-endian byte image of a list of 16-bit words, as the program file
stores them and `main` copies them into memory byte by byte. -/
def bytesOfWords (ws : List Nat) : List Nat :=
  ws.foldr (fun w acc => w % 256 :: (w >>> 8) % 256 :: acc) []

/-- The machine `main` builds: zeroed memory overwritten from the program
image starting at byte 0, zeroed registers, empty stack, `ip = 0`, and the
given pending stdin lines. -/
def initMachine (ws : List Nat) (inp : List (List Nat)) : Machine :=
  { memory := fun i => (bytesOfWords ws).getD i 0
    registers := fun _ => 0
    stack := []
    ip := 0
    input := inp
    output := [] }


/-- State-threaded translation of `read_mem`, mirroring its Rust signature
`fn read_mem(mach: &mut Machine, ...) -> u16`: the machine is passed in and
handed back. The body performs only reads, so each branch returns the
machine it received. -/
def read_mem_st (m : Machine) (address : Address) : Nat × Machine :=
  match address with
  | .mem raw_addr =>
      let addr := raw_addr <<< 1
      let lower := m.memory addr
      let upper := m.memory (addr + 1) <<< 8
      (upper ||| lower, m)
  | .reg addr => (m.registers addr, m)

/-- State-threaded translation of `get_oprnd_value` (`&mut Machine`): every
`read_mem` call threads the machine through. -/
def get_oprnd_value_st (m : Machine) (raw_addr : Nat) : Option (Nat × Machine) := do
  let a ← get_addr raw_addr
  let (value, m1) := read_mem_st m a
  if value < INTEGER_RANGE then
    pure (value, m1)
  else do
    let a2 ← get_addr value
    pure (read_mem_st m1 a2)

/-- State-threaded translation of `get_op` (`&mut Machine`): every read and
operand resolution threads the machine through. -/
def get_op_st (m : Machine) (raw_addr : Nat) : Option (Instruction × Machine) := do
  let addr ← get_addr raw_addr
  let (instr, m0) := read_mem_st m addr
  match instr with
  | 0 => pure (.halt, m0)
  | 18 => pure (.ret, m0)
  | 21 => pure (.noop, m0)
  | 2 | 3 | 6 | 17 | 19 | 20 => do
      let a_raw_addr ← get_addr (raw_addr + 1)
      let (a_raw, m1) := read_mem_st m0 a_raw_addr
      let (a, m2) ← get_oprnd_value_st m1 (raw_addr + 1)
      match instr with
      | 2 => pure (.push a, m2)
      | 3 => pure (.pop a_raw, m2)
      | 6 => pure (.jmp a, m2)
      | 17 => pure (.call a, m2)
      | 19 => pure (.out a, m2)
      | 20 => pure (.inp a_raw, m2)
      | _ => none
  | 1 | 7 | 8 | 14 | 15 | 16 => do
      let a_raw_addr ← get_addr (raw_addr + 1)
      let (a_raw, m1) := read_mem_st m0 a_raw_addr
      let b_raw_addr ← get_addr (raw_addr + 2)
      let (b_raw, m2) := read_mem_st m1 b_raw_addr
      let (a, m3) ← get_oprnd_value_st m2 (raw_addr + 1)
      let (b, m4) ← get_oprnd_value_st m3 (raw_addr + 2)
      match instr with
      | 1 => pure (.set a_raw b, m4)
      | 7 => pure (.jt a b, m4)
      | 8 => pure (.jf a b, m4)
      | 14 => pure (.not a_raw b, m4)
      | 15 => pure (.rmem a_raw b_raw, m4)
      | 16 => pure (.wmem a b, m4)
      | _ => none
  | 4 | 5 | 9 | 10 | 11 | 12 | 13 => do
      let a_raw_addr ← get_addr (raw_addr + 1)
      let (a_raw, m1) := read_mem_st m0 a_raw_addr
      let (b, m2) ← get_oprnd_value_st m1 (raw_addr + 2)
      let (c, m3) ← get_oprnd_value_st m2 (raw_addr + 3)
      match instr with
      | 4 => pure (.eq a_raw b c, m3)
      | 5 => pure (.gt a_raw b c, m3)
      | 9 => pure (.add a_raw b c, m3)
      | 10 => pure (.mult a_raw b c, m3)
      | 11 => pure (.mod a_raw b c, m3)
      | 12 => pure (.and a_raw b c, m3)
      | 13 => pure (.or a_raw b c, m3)
      | _ => none
  | _ => none

/-- Program `call 10; (8 zero words); ret` loaded at address 0: the concrete
control-transfer scenario of the spec. -/
def callRetMachine : Machine := initMachine [17, 10, 0, 0, 0, 0, 0, 0, 0, 0, 18] []

/-- Program `wmem 3 0` loaded at address 0, with word 3 initially the `noop`
opcode 21: after the write, address 3 holds the `halt` opcode. -/
def selfModMachine : Machine := initMachine [16, 3, 0, 21] []

/-- Program `in r0` loaded at address 0, with one pending input line `"x"`
(byte 120). -/
def inMachine : Machine := initMachine [20, 32768] [[120]]

/-- Program `add 100 2 3` loaded at address 0: the destination word 100 is a
literal, not a register reference. -/
def literalDestMachine : Machine := initMachine [9, 100, 2, 3] []

/-- Program `out 200; halt` loaded at address 0. -/
def outHighMachine : Machine := initMachine [19, 200, 0] []

/-- Program `out 65; halt` loaded at address 0. -/
def outAsciiMachine : Machine := initMachine [19, 65, 0] []

/-- Program `gt r0 7 3` loaded at address 0: a decode whose operand resolution
reads through the register file. -/
def gtMachine : Machine := initMachine [5, 32768, 7, 3] []

/-! ## Helper lemmas -/

theorem ADDRESS_RANGE_eq : ADDRESS_RANGE = 32768 := rfl

theorem INTEGER_RANGE_eq : INTEGER_RANGE = 32768 := rfl

theorem read_mem_st_eq (m : Machine) (a : Address) :
    read_mem_st m a = (read_mem m a, m) := by
  cases a <;> rfl

theorem get_oprnd_value_st_eq (m : Machine) (r : Nat) :
    get_oprnd_value_st m r = (get_oprnd_value m r).map (fun v => (v, m)) := by
  rw [get_oprnd_value_st, get_oprnd_value]
  cases get_addr r with
  | none => rfl
  | some a =>
      simp only [Option.pure_def, Option.bind_eq_bind, Option.some_bind, read_mem_st_eq]
      split
      · rfl
      · simp [Option.map_bind', read_mem_st_eq]

set_option maxHeartbeats 1000000 in
theorem get_op_st_eq (m : Machine) (r : Nat) :
    get_op_st m r = (get_op m r).map (fun i => (i, m)) := by
  rw [get_op_st, get_op]
  cases get_addr r with
  | none => rfl
  | some addr =>
      simp only [Option.pure_def, Option.bind_eq_bind, Option.some_bind, read_mem_st_eq]
      generalize read_mem m addr = w
      split <;>
        simp [get_oprnd_value_st_eq, Option.bind_map, Option.map_bind', read_mem_st_eq,
          Function.comp_def]

/-! ## Claim theorems -/

/-- C4: the operand classification `get_addr` is total and partitions the
word domain exactly: words below 32768 classify as memory literals, words
32768..32775 as register references `w - 32768`, and words from 32776 on as
invalid (`none`), and interpreting such an invalid word as an operand
(`get_oprnd_value`) aborts fatally (`none`, the `unwrap` panic). -/
theorem get_addr_classification :
    ∀ w : Nat,
      (w < 32768 → get_addr w = some (.mem w)) ∧
      (32768 ≤ w → w < 32776 → get_addr w = some (.reg (w - 32768))) ∧
      (32776 ≤ w → get_addr w = none ∧
        ∀ m : Machine, get_oprnd_value m w = none) := by
  intro w
  refine ⟨fun h1 => ?_, fun h1 h2 => ?_, fun h1 => ?_⟩
  · rw [get_addr, if_pos (by rw [ADDRESS_RANGE_eq]; omega)]
  · rw [get_addr, if_neg (by rw [ADDRESS_RANGE_eq]; omega),
      if_pos (by rw [ADDRESS_RANGE_eq, NUMBER_OF_REGISTERS]; omega), ADDRESS_RANGE_eq]
  · have hnone : get_addr w = none := by
      rw [get_addr, if_neg (by rw [ADDRESS_RANGE_eq]; omega),
        if_neg (by rw [ADDRESS_RANGE_eq, NUMBER_OF_REGISTERS]; omega)]
    exact ⟨hnone, fun m => by rw [get_oprnd_value]; rw [hnone]; rfl⟩

/-- Witness for C4 at concrete words 5, 32770 and 40000. -/
theorem get_addr_classification_witness :
    get_addr 5 = some (.mem 5) ∧ get_addr 32770 = some (.reg 2) ∧
      get_addr 40000 = none ∧ get_oprnd_value (initMachine [] []) 40000 = none :=
  ⟨(get_addr_classification 5).1 (by decide),
   (get_addr_classification 32770).2.1 (by decide) (by decide),
   ((get_addr_classification 40000).2.2 (by decide)).1,
   ((get_addr_classification 40000).2.2 (by decide)).2 (initMachine [] [])⟩

/-- C5: `comp_op` on `gt d x y` writes 1 into register `d` exactly when
`x` is strictly greater than `y` (and 0 otherwise), and on `eq d x y`
writes 1 exactly when `x = y`; memory is untouched. -/
theorem comp_op_gt_strict_eq_exact :
    ∀ (m : Machine) (d i x y : Nat), get_addr d = some (.reg i) →
      (∃ m', comp_op m (.gt d x y) = some m' ∧
        m'.registers i = (if x > y then 1 else 0) ∧ m'.memory = m.memory) ∧
      (∃ m', comp_op m (.eq d x y) = some m' ∧
        m'.registers i = (if x = y then 1 else 0) ∧ m'.memory = m.memory) := by
  intro m d i x y h
  constructor
  · refine ⟨write_mem m (.reg i) (if x > y then 1 else 0), ?_, ?_, rfl⟩
    · rw [comp_op, h]; rfl
    · rw [write_mem]; simp
  · refine ⟨write_mem m (.reg i) (if x = y then 1 else 0), ?_, ?_, rfl⟩
    · rw [comp_op, h]; rfl
    · rw [write_mem]; simp

/-- Witness for C5: `gt` with destination word 32768 (register 0) and
values 7 and 3 stores 1; `eq` with values 7 and 3 stores 0. -/
theorem comp_op_gt_strict_eq_exact_witness :
    (∃ m', comp_op (initMachine [] []) (.gt 32768 7 3) = some m' ∧
      m'.registers 0 = (if 7 > 3 then 1 else 0) ∧
      m'.memory = (initMachine [] []).memory) ∧
    (∃ m', comp_op (initMachine [] []) (.eq 32768 7 3) = some m' ∧
      m'.registers 0 = (if 7 = 3 then 1 else 0) ∧
      m'.memory = (initMachine [] []).memory) :=
  comp_op_gt_strict_eq_exact (initMachine [] []) 32768 0 7 3 rfl

/-- C6: `bin_op` with the `add`/`mult` closures and a register destination
stores `(a + b) % 32768` resp. `(a * b) % 32768`, hence always a value
strictly below 32768, for all operand values `a, b ≤ 32767`. -/
theorem bin_op_add_mult_modular :
    ∀ (m : Machine) (d i a b : Nat), get_addr d = some (.reg i) →
      a ≤ 32767 → b ≤ 32767 →
      (∃ m', bin_op m (fun x y => some (x + y)) (.add d a b) = some m' ∧
        m'.registers i = (a + b) % 32768 ∧ m'.registers i < 32768) ∧
      (∃ m', bin_op m (fun x y => some (x * y)) (.mult d a b) = some m' ∧
        m'.registers i = (a * b) % 32768 ∧ m'.registers i < 32768) := by
  intro m d i a b h _ _
  have hmod : ∀ n : Nat, (n % INTEGER_RANGE) % 65536 = n % 32768 := by
    intro n
    rw [INTEGER_RANGE_eq]
    exact Nat.mod_eq_of_lt (lt_trans (Nat.mod_lt _ (by omega)) (by omega))
  constructor
  · refine ⟨write_mem m (.reg i) (((a + b) % INTEGER_RANGE) % 65536), ?_, ?_, ?_⟩
    · rw [bin_op, h]; rfl
    · rw [write_mem]; simp [hmod]
    · rw [write_mem]; simp [hmod]; exact Nat.mod_lt _ (by omega)
  · refine ⟨write_mem m (.reg i) (((a * b) % INTEGER_RANGE) % 65536), ?_, ?_, ?_⟩
    · rw [bin_op, h]; rfl
    · rw [write_mem]; simp [hmod]
    · rw [write_mem]; simp [hmod]; exact Nat.mod_lt _ (by omega)

/-- Witness for C6 at destination word 32768 (register 0), `a = 5`,
`b = 10`. -/
theorem bin_op_add_mult_modular_witness :
    (∃ m', bin_op (initMachine [] []) (fun x y => some (x + y)) (.add 32768 5 10) = some m' ∧
      m'.registers 0 = (5 + 10) % 32768 ∧ m'.registers 0 < 32768) ∧
    (∃ m', bin_op (initMachine [] []) (fun x y => some (x * y)) (.mult 32768 5 10) = some m' ∧
      m'.registers 0 = (5 * 10) % 32768 ∧ m'.registers 0 < 32768) :=
  bin_op_add_mult_modular (initMachine [] []) 32768 0 5 10 rfl (by decide) (by decide)

/-- C9: executing `mod d a 0` (resolved divisor 0) aborts the run: the
`x % y` in the Rust closure panics (or, if the destination word is itself
invalid, the earlier `unwrap` does), so no result is stored and no next
state exists. -/
theorem mod_by_zero_aborts :
    ∀ (m : Machine) (d a : Nat),
      get_op m m.ip = some (.mod d a 0) → step m = .aborted := by
  intro m d a h
  simp only [step, h, bin_op]
  cases hd : get_addr d <;> simp

/-- Witness for C9: the program `mod r0 5 0` aborts on its first step. -/
theorem mod_by_zero_aborts_witness :
    step (initMachine [11, 32768, 5, 0] []) = .aborted :=
  mod_by_zero_aborts (initMachine [11, 32768, 5, 0] []) 32768 5 rfl

/-- C7: `call v` executed at `pc` pushes `pc + 2` and jumps to `v`; `ret`
pops the top of stack into `pc`; concretely, `call 10` at pc 0 followed by
`ret` resumes at pc 2 (not 10 or 0), with the stack restored. -/
theorem call_pushes_return_address :
    (∀ (m : Machine) (v : Nat), get_op m m.ip = some (.call v) →
      step m = .next { m with stack := (m.ip + 2) :: m.stack, ip := v }) ∧
    (∀ (m : Machine) (v : Nat) (rest : List Nat), get_op m m.ip = some .ret →
      m.stack = v :: rest → step m = .next { m with stack := rest, ip := v }) ∧
    (∃ m1 m2, step callRetMachine = .next m1 ∧ m1.ip = 10 ∧ m1.stack = [2] ∧
      step m1 = .next m2 ∧ m2.ip = 2 ∧ m2.stack = []) := by
  refine ⟨fun m v h => ?_, fun m v rest h hs => ?_, ⟨_, _, rfl, rfl, rfl, rfl, rfl, rfl⟩⟩
  · simp only [step, h]
  · simp only [step, h, hs]

/-- Witness for C7: the `call` clause applied to the concrete machine. -/
theorem call_pushes_return_address_witness :
    step callRetMachine =
      .next { callRetMachine with
                stack := (callRetMachine.ip + 2) :: callRetMachine.stack, ip := 10 } :=
  call_pushes_return_address.1 callRetMachine 10 rfl

/-- C8: instruction fetch is never cached: the word at address 3 decodes as
`noop` in the initial memory, but after the `wmem` at pc 0 overwrites it
with opcode 0 and execution falls through to pc 3, the machine decodes and
executes the newly written `halt`. -/
theorem fetch_reads_current_memory :
    get_op selfModMachine 3 = some .noop ∧
    ∃ m1, step selfModMachine = .next m1 ∧ m1.ip = 3 ∧
      get_op m1 3 = some .halt ∧ step m1 = .halted m1 :=
  ⟨rfl, _, rfl, rfl, rfl, rfl⟩

/-- C1 (code bug): executing `in r0` reads and discards one input line,
writes nothing into any register, and leaves `pc` at 0 instead of
advancing to 2 — the handler re-executes forever. -/
theorem in_discards_line_no_write_no_advance :
    get_op inMachine 0 = some (.inp 32768) ∧
    ∃ m', step inMachine = .next m' ∧ m'.ip = 0 ∧
      (∀ i, m'.registers i = 0) ∧ m'.input = [] :=
  ⟨rfl, _, rfl, rfl, fun _ => rfl, rfl⟩

/-- C2 (code bug): an `add` whose destination operand classifies as the
literal 100 does not fault: the interpreter writes the result 5 into
Memory at word address 100 and continues at pc 4. -/
theorem literal_destination_writes_memory :
    get_op literalDestMachine 0 = some (.add 100 2 3) ∧
    ∃ m', step literalDestMachine = .next m' ∧
      read_mem m' (.mem 100) = 5 ∧ m'.ip = 4 :=
  ⟨rfl, _, rfl, rfl, rfl⟩

/-- C3 counterexample: `out 200` emits the two bytes 195 and 136 (the
UTF-8 encoding of code point 200), not the single byte 200. -/
theorem out_high_byte_not_single :
    ∃ m', step outHighMachine = .next m' ∧ m'.output = [195, 136] ∧
      m'.output ≠ [200] :=
  ⟨_, rfl, rfl, by decide⟩

/-- C3 (amended): every executed `out a` appends the UTF-8 encoding of the
code point `a % 256` to the output and advances `pc` by 2; that encoding
is the single byte `a % 256` exactly when `a % 256 < 128`, and two bytes
otherwise. -/
theorem out_emits_utf8_of_low_byte :
    ∀ (m : Machine) (a : Nat), get_op m m.ip = some (.out a) →
      step m = .next { m with output := m.output ++ utf8OfByte (a % 256),
                              ip := m.ip + 2 } ∧
      (a % 256 < 128 → utf8OfByte (a % 256) = [a % 256]) ∧
      (128 ≤ a % 256 → (utf8OfByte (a % 256)).length = 2) := by
  intro m a h
  refine ⟨by simp only [step, h], fun hlt => ?_, fun hge => ?_⟩
  · rw [utf8OfByte, if_pos hlt]
  · rw [utf8OfByte, if_neg (by omega)]; rfl

/-- Witness for the amended C3 at the ASCII value 65. -/
theorem out_emits_utf8_of_low_byte_witness :
    step outAsciiMachine =
      .next { outAsciiMachine with
                output := outAsciiMachine.output ++ utf8OfByte (65 % 256),
                ip := outAsciiMachine.ip + 2 } ∧
      (65 % 256 < 128 → utf8OfByte (65 % 256) = [65 % 256]) ∧
      (128 ≤ 65 % 256 → (utf8OfByte (65 % 256)).length = 2) :=
  out_emits_utf8_of_low_byte outAsciiMachine 65 rfl


/-- C10: decoding is side-effect-free: whenever the state-threaded decoder
`get_op_st` (which mirrors the `&mut Machine` signatures of `get_op` and its
callees and threads the machine through every read) succeeds, the machine it
hands back has the same memory, register file and stack it received, and the
instruction agrees with the pure decoder `get_op`. -/
theorem decode_leaves_state_unchanged :
    ∀ (m : Machine) (pc : Nat) (i : Instruction) (m' : Machine),
      get_op_st m pc = some (i, m') →
      m'.memory = m.memory ∧ m'.registers = m.registers ∧ m'.stack = m.stack ∧
      get_op m pc = some i := by
  intro m pc i m' h
  rw [get_op_st_eq] at h
  cases hg : get_op m pc with
  | none => rw [hg] at h; exact absurd h (by simp)
  | some j =>
      rw [hg] at h
      simp only [Option.map_some', Option.some.injEq, Prod.mk.injEq] at h
      obtain ⟨h1, h2⟩ := h
      subst h1
      subst h2
      exact ⟨rfl, rfl, rfl, rfl⟩

/-- Witness for C10: decoding `gt r0 7 3` (which resolves two operands and
reads register 0) hands back the machine unchanged. -/
theorem decode_leaves_state_unchanged_witness :
    gtMachine.memory = gtMachine.memory ∧ gtMachine.registers = gtMachine.registers ∧
      gtMachine.stack = gtMachine.stack ∧ get_op gtMachine 0 = some (.gt 32768 7 3) :=
  decode_leaves_state_unchanged gtMachine 0 (.gt 32768 7 3) gtMachine rfl

end Synacor
